import Mathlib

/-!
Shallow embedding of the C-SerialMonitor application (Python/PySide6) in
Lean 4, covering the hex formatting helpers, the file-send worker, the
preset manager, the theme store, the connection factory, the disconnect
paths of the connection variants, and the receive-display option handlers.
Bytes are modelled as `Fin 256`; Python text decoding is kept abstract as a
function parameter where the code delegates to the codec library.
-/

/-- A byte, the element type of Python `bytes`. -/
def Byte := Fin 256

instance : DecidableEq Byte := instDecidableEqFin 256

instance (n : Nat) [NeZero (256 : Nat)] : OfNat Byte n := Fin.instOfNat

/-! ## Hex formatting (receive side)

Source: `main_app.py`, `SerialMonitor._format_data` (hex branch is
`' '.join([f'{b:02X}' for b in raw_data]) + ' '`), identical expressions in
`serial_threads.py` (`SerialThread.run`) and `connection_manager.py`
(`DataReceiveThread.run`). -/

/-- Uppercase hex digit of a value below 16, as in Python format `X`. -/
def hexDigitU (n : Nat) : Char :=
  if n < 10 then Char.ofNat (48 + n) else Char.ofNat (55 + n)

/-- The two characters of Python `f-string` formatting `02X` applied to a
byte (bytes are below 256, so the rendering is exactly two digits). -/
def hexPairU (b : Byte) : List Char :=
  [hexDigitU (b.val / 16), hexDigitU (b.val % 16)]

/-- Python `' '.join(parts)`. -/
def pyJoinSpace (parts : List (List Char)) : List Char :=
  match parts with
  | [] => []
  | p :: ps => p ++ (ps.flatMap (fun q => ' ' :: q))

/-- The hex branch of `_format_data` and of the two receive workers:
`' '.join([f'{b:02X}' for b in raw_data]) + ' '`. -/
def hexJoinFormat (data : List Byte) : List Char :=
  pyJoinSpace (data.map hexPairU) ++ [' ']

/-- Type of the Python `bytes.decode(encoding, errors=...)` operation,
kept abstract: it maps an encoding name, an error-policy name and the raw
bytes to the decoded text. -/
def DecodeFn := String → String → List Byte → String

/-- `SerialMonitor._format_data(raw_data, hex_mode, encoding, error_handling)`
from `main_app.py`. -/
def format_data (decode : DecodeFn) (raw_data : List Byte) (hex_mode : Bool)
    (encoding error_handling : String) : String :=
  if hex_mode then
    String.mk (hexJoinFormat raw_data)
  else
    decode encoding error_handling raw_data

/-! ## Hex send path

Source: `main_app.py`, `SerialMonitor.send_data`, hex branch:
`data = data.replace(" ", "")` followed by `send_bytes = bytes.fromhex(data)`. -/

/-- Python `str.replace(" ", "")`: remove every space character. -/
def stripSpaces (s : String) : String :=
  String.mk (s.data.filter (fun c => c ≠ ' '))

/-- Value of a hexadecimal digit character (upper or lower case), `none`
when the character is not a hex digit. -/
def hexDigitVal (c : Char) : Option (Fin 16) :=
  if h : 48 ≤ c.toNat ∧ c.toNat ≤ 57 then
    some ⟨c.toNat - 48, by omega⟩
  else if h : 65 ≤ c.toNat ∧ c.toNat ≤ 70 then
    some ⟨c.toNat - 55, by omega⟩
  else if h : 97 ≤ c.toNat ∧ c.toNat ≤ 102 then
    some ⟨c.toNat - 87, by omega⟩
  else
    none

/-- Python `bytes.fromhex` on a string holding no whitespace (the send
path strips all spaces first): consume hex digits two at a time; any
non-digit or an odd number of digits is a `ValueError`, modelled as
`none`. -/
def bytesFromHex : List Char → Option (List Byte)
  | [] => some []
  | [_] => none
  | c₁ :: c₂ :: rest =>
    match hexDigitVal c₁, hexDigitVal c₂ with
    | some h, some l =>
      match bytesFromHex rest with
      | some bs => some (⟨16 * h.val + l.val, by omega⟩ :: bs)
      | none => none
    | _, _ => none

/-- The hex-send path of `SerialMonitor.send_data`: strip all spaces, then
parse as hex digit pairs. -/
def sendDataHexPath (s : String) : Option (List Byte) :=
  bytesFromHex (stripSpaces s).data

/-! ### Round-trip lemmas for C2 -/

theorem hexDigitVal_hexDigitU (d : Fin 16) :
    hexDigitVal (hexDigitU d.val) = some d := by
  fin_cases d <;> decide

theorem hexDigitU_ne_space (d : Fin 16) : hexDigitU d.val ≠ ' ' := by
  revert d
  decide

theorem hexPairU_not_space (b : Byte) (c : Char) (hc : c ∈ hexPairU b) :
    c ≠ ' ' := by
  have ha := hexDigitU_ne_space ⟨b.val / 16, by omega⟩
  have hb := hexDigitU_ne_space ⟨b.val % 16, by omega⟩
  simp only [hexPairU, List.mem_cons, List.not_mem_nil, or_false] at hc
  rcases hc with h | h <;> subst h <;> assumption

theorem bytesFromHex_hexPair (b : Byte) (rest : List Char) (l : List Byte)
    (ih : bytesFromHex rest = some l) :
    bytesFromHex (hexPairU b ++ rest) = some (b :: l) := by
  have h1 : hexDigitVal (hexDigitU (b.val / 16)) = some ⟨b.val / 16, by omega⟩ :=
    hexDigitVal_hexDigitU ⟨b.val / 16, by omega⟩
  have h2 : hexDigitVal (hexDigitU (b.val % 16)) = some ⟨b.val % 16, by omega⟩ :=
    hexDigitVal_hexDigitU ⟨b.val % 16, by omega⟩
  show bytesFromHex (hexDigitU (b.val / 16) :: hexDigitU (b.val % 16) :: rest)
      = some (b :: l)
  simp only [bytesFromHex, h1, h2, ih]
  have hb : 16 * (b.val / 16) + b.val % 16 = b.val := by omega
  simp [Fin.ext_iff, hb]

theorem filter_hexPairU (b : Byte) :
    (hexPairU b).filter (fun c => c ≠ ' ') = hexPairU b :=
  List.filter_eq_self.mpr (fun c hc => decide_eq_true (hexPairU_not_space b c hc))

theorem filter_tail_join (bs : List Byte) :
    ((bs.map hexPairU).flatMap (fun q => ' ' :: q)).filter (fun c => c ≠ ' ')
      = bs.flatMap hexPairU := by
  induction bs with
  | nil => rfl
  | cons x xs ih =>
    simp only [List.map_cons, List.flatMap_cons, List.filter_append, ih]
    have hcons : ((' ' :: hexPairU x).filter (fun c => c ≠ ' ')) = hexPairU x := by
      rw [List.filter_cons, if_neg (by decide), filter_hexPairU]
    rw [hcons]

theorem stripSpaces_hexJoin (data : List Byte) :
    (hexJoinFormat data).filter (fun c => c ≠ ' ') = data.flatMap hexPairU := by
  unfold hexJoinFormat
  rw [List.filter_append]
  have hsp : ([' '].filter (fun c => c ≠ ' ')) = [] := rfl
  rw [hsp, List.append_nil]
  cases data with
  | nil => rfl
  | cons b bs =>
    show ((hexPairU b ++ (bs.map hexPairU).flatMap (fun q => ' ' :: q)).filter
        (fun c => c ≠ ' ')) = (b :: bs).flatMap hexPairU
    rw [List.filter_append, filter_hexPairU, filter_tail_join, List.flatMap_cons]

theorem bytesFromHex_flatMap (data : List Byte) :
    bytesFromHex (data.flatMap hexPairU) = some data := by
  induction data with
  | nil => rfl
  | cons b bs ih =>
    simp only [List.flatMap_cons]
    exact bytesFromHex_hexPair b _ _ ih

/-- C2: hex formatting and hex-send parsing are mutually inverse: for the
bytes `[0x0A, 0xFF, 0x00]` the receive-side hex rendering is exactly
`"0A FF 00 "`, and for every byte sequence, feeding the rendering through
the hex-send path (strip all spaces, parse hex digit pairs) reproduces the
original bytes. -/
theorem hex_roundtrip_c2 :
    (∀ (decode : DecodeFn) (enc errh : String),
      format_data decode [10, 255, 0] true enc errh = "0A FF 00 ")
    ∧ ∀ (decode : DecodeFn) (enc errh : String) (bs : List Byte),
        sendDataHexPath (format_data decode bs true enc errh) = some bs := by
  constructor
  · intro decode enc errh
    show String.mk (hexJoinFormat [10, 255, 0]) = "0A FF 00 "
    decide
  · intro decode enc errh bs
    show bytesFromHex ((hexJoinFormat bs).filter (fun c => c ≠ ' ')) = some bs
    rw [stripSpaces_hexJoin, bytesFromHex_flatMap]

/-! ## The three formatting sites (C5)

Each of the following transcribes one source site:
`SerialThread.run` (serial_threads.py, lines 26-31),
`DataReceiveThread.run` (connection_manager.py, lines 433-438),
`SerialMonitor._format_data` (main_app.py, lines 1450-1457, above). -/

/-- Formatting step of the legacy serial read worker `SerialThread.run`. -/
def serialThread_format (decode : DecodeFn) (hex_mode : Bool)
    (encoding error_handling : String) (data : List Byte) : String :=
  if hex_mode then
    String.mk (pyJoinSpace (data.map hexPairU) ++ [' '])
  else
    decode encoding error_handling data

/-- Formatting step of the generic receiver `DataReceiveThread.run`. -/
def dataReceiveThread_format (decode : DecodeFn) (hex_mode : Bool)
    (encoding error_handling : String) (data : List Byte) : String :=
  if hex_mode then
    String.mk (pyJoinSpace (data.map hexPairU) ++ [' '])
  else
    decode encoding error_handling data

/-- C5: the legacy serial read worker, the generic receiver thread, and the
main window's formatting helper compute the same formatting function, for
every byte sequence and every (hex mode, encoding, error policy) setting. -/
theorem receive_formatters_agree :
    ∀ (decode : DecodeFn) (hex_mode : Bool) (enc errh : String) (data : List Byte),
      serialThread_format decode hex_mode enc errh data
          = dataReceiveThread_format decode hex_mode enc errh data
        ∧ dataReceiveThread_format decode hex_mode enc errh data
          = format_data decode data hex_mode enc errh := by
  intro decode hex_mode enc errh data
  exact ⟨rfl, rfl⟩

/-! ## File-send worker (C1)

Source: `serial_threads.py`, `FileSendThread.run` and
`FileSendThread.get_file_size`. The loop is modelled with the serial port
open throughout, the constructor-default `utf-8` encoding of the hex
string (one byte per hex-digit character), exact arithmetic for
`int((sent_size / file_size) * 100)`, and cooperative cancellation
arriving before loop iteration number `cancelAfter` (`none`: `stop()` is
never called). `file_size` is `os.path.getsize`, i.e. the length of the
file being sent. Recursion is by a fuel counter that strictly dominates
the number of loop iterations, so the definition evaluates. -/

/-- Lowercase hex digit, as produced by Python `bytes.hex()`. -/
def hexDigitL (n : Nat) : Char :=
  if n < 10 then Char.ofNat (48 + n) else Char.ofNat (87 + n)

/-- Python `chunk.hex()`: lowercase hex pairs, no separators. -/
def pyBytesHex (bs : List Byte) : List Char :=
  bs.flatMap (fun b => [hexDigitL (b.val / 16), hexDigitL (b.val % 16)])

/-- `str.encode("utf-8")` on a pure-ASCII string: one byte per character. -/
def asciiEncode (cs : List Char) : List Byte :=
  cs.map (fun c => ⟨c.toNat % 256, Nat.mod_lt _ (by norm_num)⟩)

/-- Progress sequence, cumulative wire-byte count and final `running` flag
of the `FileSendThread.run` while-loop. `fuel` bounds the number of loop
iterations; every use supplies `remaining.length + 1`, which lemma
`fileSendLoop_fuel` shows is never exhausted. -/
def fileSendLoop : Nat → Bool → Nat → Nat → Option Nat → List Byte → Nat →
    List Nat × Nat × Bool
  | 0, _, _, _, _, _, sent => ([], sent, true)
  | fuel + 1, hex_mode, chunk_size, file_size, cancelAfter, remaining, sent =>
    if cancelAfter = some 0 then
      ([], sent, false)
    else
      match remaining.take chunk_size with
      | [] => ([], sent, true)
      | _ :: _ =>
        let chunk := remaining.take chunk_size
        let wire := if hex_mode then asciiEncode (pyBytesHex chunk) else chunk
        let sent1 := sent + wire.length
        let progress := if 0 < file_size then sent1 * 100 / file_size else 100
        let r := fileSendLoop fuel hex_mode chunk_size file_size
          (cancelAfter.map (fun k => k - 1)) (remaining.drop chunk_size) sent1
        (progress :: r.1, r.2.1, r.2.2)

/-- Observable outcome of one `FileSendThread.run`: the emitted progress
values, the `sent_size` reported by the final message, and whether the
final message is the success one (`True` flag) rather than cancellation. -/
structure FileSendOutcome where
  progresses : List Nat
  sent_size : Nat
  success : Bool
  deriving DecidableEq, Repr

/-- One complete `FileSendThread.run` over a file with the given bytes. -/
def fileSendRun (fileBytes : List Byte) (chunk_size : Nat) (hex_mode : Bool)
    (cancelAfter : Option Nat) : FileSendOutcome :=
  let file_size := fileBytes.length
  let r := fileSendLoop (fileBytes.length + 1) hex_mode chunk_size file_size
    cancelAfter fileBytes 0
  { progresses := r.1, sent_size := r.2.1, success := r.2.2 }

/-! ### Spec-side characterization of the file-send progress sequence -/

/-- The chunks successively returned by `f.read(chunk_size)`. -/
def chunksOf (n : Nat) (l : List Byte) : List (List Byte) :=
  match h : l.take n with
  | [] => []
  | _ :: _ => l.take n :: chunksOf n (l.drop n)
termination_by l.length
decreasing_by
  have h1 : ¬(l = [] ∨ n = 0) := by
    intro hor
    rcases hor with h2 | h2 <;> subst h2 <;> simp at h
  push_neg at h1
  have h2 : l.length ≠ 0 := fun h0 => h1.1 (List.length_eq_zero.mp h0)
  have h3 : n ≠ 0 := h1.2
  simp only [List.length_drop]
  omega

/-- Wire length of one transmitted chunk: doubled in hex mode (each byte
becomes two hex-digit characters, one byte each under the default codec). -/
def wireLen (hex_mode : Bool) (chunk : List Byte) : Nat :=
  if hex_mode then 2 * chunk.length else chunk.length

/-- Running partial sums, starting from an accumulator. -/
def cumSums : List Nat → Nat → List Nat
  | [], _ => []
  | x :: xs, acc => (acc + x) :: cumSums xs (acc + x)

/-- Truncation by an optional bound (`none`: no truncation). -/
def takeOpt : Option Nat → List Nat → List Nat
  | none, l => l
  | some k, l => l.take k

/-- The progress value the worker computes from a cumulative sent count:
`int((sent_size / file_size) * 100)`, `100` when the file size is zero. -/
def progressOf (file_size s : Nat) : Nat :=
  if 0 < file_size then s * 100 / file_size else 100

/-- Modelled from the spec sentence: the progress sequence is, for each
chunk actually transmitted before cancellation, the value
`int((bytes_sent_so_far / file_size) * 100)`. -/
def specProgresses (fileBytes : List Byte) (chunk_size : Nat) (hex_mode : Bool)
    (cancelAfter : Option Nat) : List Nat :=
  takeOpt cancelAfter
    ((cumSums ((chunksOf chunk_size fileBytes).map (wireLen hex_mode)) 0).map
      (progressOf fileBytes.length))

theorem chunksOf_eq_nil {n : Nat} {l : List Byte} (h : l.take n = []) :
    chunksOf n l = [] := by
  rw [chunksOf]
  split
  · rfl
  · rename_i x xs heq
    rw [h] at heq
    simp at heq

theorem chunksOf_eq_cons {n : Nat} {l : List Byte} {x : Byte} {xs : List Byte}
    (h : l.take n = x :: xs) :
    chunksOf n l = l.take n :: chunksOf n (l.drop n) := by
  rw [chunksOf]
  split
  · rename_i heq
    rw [h] at heq
    simp at heq
  · rfl

theorem asciiEncode_pyBytesHex_length (c : List Byte) :
    (asciiEncode (pyBytesHex c)).length = 2 * c.length := by
  induction c with
  | nil => rfl
  | cons b bs ih =>
    simp only [asciiEncode, pyBytesHex, List.flatMap_cons, List.map_append,
      List.length_append, List.length_map] at ih ⊢
    simp only [List.length_cons, List.length_nil, List.length_map]
    omega

theorem wire_length_eq (hex_mode : Bool) (chunk : List Byte) :
    (if hex_mode then asciiEncode (pyBytesHex chunk) else chunk).length
      = wireLen hex_mode chunk := by
  cases hex_mode with
  | false => rfl
  | true => simp [wireLen, asciiEncode_pyBytesHex_length]

theorem fileSendLoop_progresses (fuel : Nat) (hex_mode : Bool)
    (chunk_size file_size : Nat) (ca : Option Nat) (remaining : List Byte)
    (sent : Nat) (h : remaining.length < fuel) :
    (fileSendLoop fuel hex_mode chunk_size file_size ca remaining sent).1
      = takeOpt ca
          ((cumSums ((chunksOf chunk_size remaining).map (wireLen hex_mode)) sent).map
            (progressOf file_size)) := by
  induction fuel generalizing ca remaining sent with
  | zero => omega
  | succ fuel ih =>
    by_cases hca : ca = some 0
    · subst hca
      simp [fileSendLoop, takeOpt]
    · cases htake : remaining.take chunk_size with
      | nil =>
        rw [chunksOf_eq_nil htake]
        simp only [fileSendLoop, if_neg hca, htake, List.map_nil, cumSums]
        cases ca with
        | none => rfl
        | some k => simp [takeOpt]
      | cons x xs =>
        rw [chunksOf_eq_cons htake]
        simp only [fileSendLoop, if_neg hca, htake]
        have hlen : (remaining.drop chunk_size).length < fuel := by
          have ht := congrArg List.length htake
          simp only [List.length_take, List.length_cons] at ht
          simp only [List.length_drop]
          omega
        rw [ih _ _ _ hlen]
        simp only [List.map_cons, cumSums, wire_length_eq]
        cases ca with
        | none => rfl
        | some k =>
          match k with
          | 0 => exact absurd rfl hca
          | k + 1 => simp [takeOpt, progressOf]

theorem progress_le_100 (a fs : Nat) (h : a ≤ fs) (hfs : 0 < fs) :
    a * 100 / fs ≤ 100 := by
  have h1 : a * 100 ≤ fs * 100 := Nat.mul_le_mul_right 100 h
  calc a * 100 / fs ≤ fs * 100 / fs := Nat.div_le_div_right h1
    _ = 100 := Nat.mul_div_cancel_left 100 hfs

theorem fileSendLoop_le_100 (fuel : Nat) (chunk_size file_size : Nat)
    (ca : Option Nat) (remaining : List Byte) (sent : Nat)
    (hinv : sent + remaining.length ≤ file_size) :
    ∀ p ∈ (fileSendLoop fuel false chunk_size file_size ca remaining sent).1,
      p ≤ 100 := by
  induction fuel generalizing ca remaining sent with
  | zero =>
    intro p hp
    simp [fileSendLoop] at hp
  | succ fuel ih =>
    by_cases hca : ca = some 0
    · subst hca
      intro p hp
      simp [fileSendLoop] at hp
    · cases htake : remaining.take chunk_size with
      | nil =>
        intro p hp
        simp [fileSendLoop, if_neg hca, htake] at hp
      | cons x xs =>
        intro p hp
        simp only [fileSendLoop, if_neg hca, htake, Bool.false_eq_true, if_false,
          List.mem_cons] at hp
        have hlens : (x :: xs).length = min chunk_size remaining.length := by
          rw [← htake, List.length_take]
        rcases hp with hp | hp
        · subst hp
          by_cases hfs : 0 < file_size
          · rw [if_pos hfs]
            apply progress_le_100
            · omega
            · exact hfs
          · rw [if_neg hfs]
        · refine ih _ _ _ ?_ p hp
          simp only [List.length_drop]
          omega

/-- C1 counterexample: the claim fails as stated. In hex mode the worker
counts the hex-inflated wire bytes, so sending a 1-byte file emits the
progress value 200, outside 0..100; and a 0-byte file emits no progress
value at all (the first read returns nothing and the loop exits before any
emission), not the value 100. -/
theorem fileSend_progress_counterexample :
    (fileSendRun [171] 1024 true none).progresses = [200]
    ∧ ¬(200 ≤ 100)
    ∧ (fileSendRun [] 1024 false none).progresses = []
    ∧ (fileSendRun [] 1024 false none).success = true := by
  decide

theorem fileSendLoop_success_none (fuel : Nat) (hex_mode : Bool)
    (chunk_size file_size : Nat) (remaining : List Byte) (sent : Nat) :
    (fileSendLoop fuel hex_mode chunk_size file_size none remaining sent).2.2
      = true := by
  induction fuel generalizing remaining sent with
  | zero => rfl
  | succ fuel ih =>
    simp only [fileSendLoop]
    rw [if_neg (by simp)]
    cases htake : remaining.take chunk_size with
    | nil => rfl
    | cons x xs => simpa [Option.map] using ih (remaining.drop chunk_size) _

theorem fileSendLoop_sent_nohex (fuel : Nat) (chunk_size file_size : Nat)
    (remaining : List Byte) (sent : Nat) (h : remaining.length < fuel)
    (hcs : 0 < chunk_size) :
    (fileSendLoop fuel false chunk_size file_size none remaining sent).2.1
      = sent + remaining.length := by
  induction fuel generalizing remaining sent with
  | zero => omega
  | succ fuel ih =>
    simp only [fileSendLoop]
    rw [if_neg (by simp)]
    cases htake : remaining.take chunk_size with
    | nil =>
      have : remaining = [] := by
        rcases List.take_eq_nil_iff.mp htake with h1 | h1
        · omega
        · exact h1
      subst this
      rfl
    | cons x xs =>
      have hlens : (x :: xs).length = min chunk_size remaining.length := by
        rw [← htake, List.length_take]
      have hlt : (remaining.drop chunk_size).length < fuel := by
        simp only [List.length_drop]
        simp only [List.length_cons] at hlens
        omega
      simp only [Option.map, Bool.false_eq_true, if_false]
      rw [ih _ _ hlt]
      simp only [List.length_drop]
      omega

/-- Helper facts evaluating the 2048-byte, 1024-chunk, non-hex run. -/
theorem chunksOf_1024_2048 :
    chunksOf 1024 (List.replicate 2048 (0 : Byte))
      = [List.replicate 1024 0, List.replicate 1024 0] := by
  have hmin1 : min 1024 2048 = 1024 := by decide
  have hmin2 : min 1024 1024 = 1024 := by decide
  have hsub : (1024 - 1024 : Nat) = 0 := by decide
  have t1 : (List.replicate 2048 (0 : Byte)).take 1024 = List.replicate 1024 0 := by
    rw [List.take_replicate, hmin1]
  have t1c : (List.replicate 2048 (0 : Byte)).take 1024
      = 0 :: List.replicate 1023 0 := by
    rw [t1]
    try rfl
  have d1 : (List.replicate 2048 (0 : Byte)).drop 1024 = List.replicate 1024 0 := by
    rw [List.drop_replicate]
    try norm_num
  have t2 : (List.replicate 1024 (0 : Byte)).take 1024 = List.replicate 1024 0 := by
    rw [List.take_replicate, hmin2]
  have t2c : (List.replicate 1024 (0 : Byte)).take 1024
      = 0 :: List.replicate 1023 0 := by
    rw [t2]
    try rfl
  have d2 : (List.replicate 1024 (0 : Byte)).drop 1024 = [] := by
    rw [List.drop_replicate, hsub, List.replicate_zero]
  rw [chunksOf_eq_cons t1c, t1, d1, chunksOf_eq_cons t2c, t2, d2,
    chunksOf_eq_nil (by simp)]

theorem fileSendRun_progresses (fb : List Byte) (cs : Nat) (hm : Bool)
    (ca : Option Nat) :
    (fileSendRun fb cs hm ca).progresses
      = (fileSendLoop (fb.length + 1) hm cs fb.length ca fb 0).1 := rfl

theorem fileSendRun_success (fb : List Byte) (cs : Nat) (hm : Bool)
    (ca : Option Nat) :
    (fileSendRun fb cs hm ca).success
      = (fileSendLoop (fb.length + 1) hm cs fb.length ca fb 0).2.2 := rfl

theorem fileSendRun_sent (fb : List Byte) (cs : Nat) (hm : Bool)
    (ca : Option Nat) :
    (fileSendRun fb cs hm ca).sent_size
      = (fileSendLoop (fb.length + 1) hm cs fb.length ca fb 0).2.1 := rfl

/-- C1 (amended): every progress value emitted by the file-send worker
equals `int((bytes_sent / total_file_size) * 100)` where `bytes_sent`
counts the bytes actually written (hex-inflated in hex mode), with 100
substituted when the file size is 0; in non-hex mode every emitted value
is in the range 0 to 100; a file of size 0 emits no progress values at
all; sending a 2048-byte file with the 1024-byte chunk size in non-hex
mode emits exactly two progress events, 50 then 100, and a final success
message reporting 2048 bytes sent. -/
theorem fileSend_progress_c1 :
    (∀ (fileBytes : List Byte) (chunk_size : Nat) (hex_mode : Bool)
        (ca : Option Nat),
      (fileSendRun fileBytes chunk_size hex_mode ca).progresses
        = specProgresses fileBytes chunk_size hex_mode ca)
    ∧ (∀ (fileBytes : List Byte) (chunk_size : Nat) (ca : Option Nat),
        ((fileSendRun fileBytes chunk_size false ca).progresses.all
          (fun p => p ≤ 100)) = true)
    ∧ (∀ (chunk_size : Nat) (hex_mode : Bool) (ca : Option Nat),
        (fileSendRun [] chunk_size hex_mode ca).progresses = [])
    ∧ (fileSendRun (List.replicate 2048 0) 1024 false none).progresses = [50, 100]
    ∧ (fileSendRun (List.replicate 2048 0) 1024 false none).success = true
    ∧ (fileSendRun (List.replicate 2048 0) 1024 false none).sent_size = 2048 := by
  refine ⟨?_, ?_, ?_, ?_, ?_, ?_⟩
  · intro fileBytes chunk_size hex_mode ca
    exact fileSendLoop_progresses _ _ _ _ _ _ _ (Nat.lt_succ_self _)
  · intro fileBytes chunk_size ca
    rw [List.all_eq_true]
    intro p hp
    have := fileSendLoop_le_100 (fileBytes.length + 1) chunk_size
      fileBytes.length ca fileBytes 0 (by omega) p hp
    simpa using this
  · intro chunk_size hex_mode ca
    by_cases hca : ca = some 0
    · subst hca
      simp [fileSendRun, fileSendLoop]
    · simp [fileSendRun, fileSendLoop, if_neg hca, List.take_nil]
  · rw [fileSendRun_progresses,
      fileSendLoop_progresses _ _ _ _ _ _ _ (Nat.lt_succ_self _),
      chunksOf_1024_2048]
    norm_num [takeOpt, cumSums, wireLen, progressOf, List.length_replicate]
  · rw [fileSendRun_success]
    exact fileSendLoop_success_none _ _ _ _ _ _
  · rw [fileSendRun_sent,
      fileSendLoop_sent_nohex _ _ _ _ _ (Nat.lt_succ_self _) (by norm_num)]
    rw [List.length_replicate]

/-! ## Preset manager (preset_manager.py)

The file system is modelled by the file's contents: `Option String`, with
`none` standing for a non-existent path (`FileNotFoundError`). -/

/-- `PresetManager.add_preset`: rejected when the text is empty (Python
falsy) or already present, otherwise appended; the flag is the return
value. -/
def add_preset (presets : List String) (preset_text : String) :
    List String × Bool :=
  if preset_text ≠ "" ∧ preset_text ∉ presets then
    (presets ++ [preset_text], true)
  else
    (presets, false)

/-- Python text-file line iteration: each line keeps its terminating
newline; a final fragment without a terminator is kept; an empty file
yields no lines. -/
def pyFileLines : List Char → List (List Char)
  | [] => []
  | c :: cs =>
    if c = '\n' then
      ['\n'] :: pyFileLines cs
    else
      match pyFileLines cs with
      | [] => [[c]]
      | l :: ls => (c :: l) :: ls

/-- Python `str.rstrip('\n')`: remove every trailing newline. -/
def rstripNewlines (l : List Char) : List Char :=
  (l.reverse.dropWhile (fun c => c = '\n')).reverse

/-- `PresetManager.load_presets_from_file`: on a missing path the
not-found error is raised (flag `false`) and the list is left unchanged;
otherwise the list is replaced by the file's lines with trailing newlines
stripped. -/
def load_presets_from_file (presets : List String) (file : Option String) :
    List String × Bool :=
  match file with
  | none => (presets, false)
  | some contents =>
    ((pyFileLines contents.data).map (fun l => String.mk (rstripNewlines l)),
      true)

/-- `PresetManager.save_presets_to_file`: raises (returns `none`, nothing
written) when the list is empty; otherwise the written contents are each
preset followed by a newline, in order. -/
def save_presets_to_file (presets : List String) : Option String :=
  if presets = [] then
    none
  else
    some (String.mk (presets.flatMap (fun p => p.data ++ ['\n'])))

theorem dropWhile_eq_self_of_not_head {p : Char → Bool} :
    ∀ {l : List Char}, (∀ c ∈ l, p c = false) → l.dropWhile p = l
  | [], _ => rfl
  | c :: cs, h => by
    rw [List.dropWhile_cons, h c (List.mem_cons_self c cs)]
    simp

theorem rstripNewlines_no_newline (p : List Char) (hp : '\n' ∉ p) :
    rstripNewlines (p ++ ['\n']) = p := by
  unfold rstripNewlines
  rw [List.reverse_append]
  show (('\n' :: p.reverse).dropWhile (fun c => c = '\n')).reverse = p
  rw [List.dropWhile_cons]
  simp only [decide_True, if_true]
  rw [dropWhile_eq_self_of_not_head, List.reverse_reverse]
  intro c hc
  have : c ∈ p := List.mem_reverse.mp hc
  simp only [decide_eq_false_iff_not]
  intro he
  subst he
  exact hp this

theorem pyFileLines_line (p : List Char) (hp : '\n' ∉ p) (rest : List Char) :
    pyFileLines (p ++ '\n' :: rest) = (p ++ ['\n']) :: pyFileLines rest := by
  induction p with
  | nil => simp [pyFileLines]
  | cons c cs ih =>
    have hc : c ≠ '\n' := fun he => hp (he ▸ List.mem_cons_self c cs)
    have hcs : '\n' ∉ cs := fun hm => hp (List.mem_cons_of_mem c hm)
    simp only [List.cons_append, pyFileLines, if_neg hc, List.append_eq]
    rw [ih hcs]

theorem load_save_lines (presets : List String)
    (hnl : ∀ p ∈ presets, ('\n') ∉ p.data) :
    (pyFileLines (presets.flatMap (fun p => p.data ++ ['\n']))).map
        (fun l => String.mk (rstripNewlines l))
      = presets := by
  induction presets with
  | nil => rfl
  | cons p ps ih =>
    have hp : ('\n') ∉ p.data := hnl p (List.mem_cons_self p ps)
    have hps : ∀ q ∈ ps, ('\n') ∉ q.data :=
      fun q hq => hnl q (List.mem_cons_of_mem p hq)
    rw [List.flatMap_cons, List.append_assoc, List.singleton_append,
      pyFileLines_line p.data hp, List.map_cons, ih hps,
      rstripNewlines_no_newline p.data hp]
    try rfl

/-- C3: preset persistence round-trips: for a non-empty preset list whose
entries contain no newline, saving then loading yields the same list in
the same order (whatever was in memory before the load); loading from a
non-existent path raises a not-found error and leaves the in-memory list
unchanged; concretely, saving then loading reproduces `["a", "b", "c"]`. -/
theorem preset_file_roundtrip_c3 :
    (∀ (old presets : List String), presets ≠ [] →
      (∀ p ∈ presets, ('\n') ∉ p.data) →
      load_presets_from_file old (save_presets_to_file presets)
        = (presets, true))
    ∧ (∀ presets : List String,
        load_presets_from_file presets none = (presets, false))
    ∧ save_presets_to_file ["a", "b", "c"] = some "a\nb\nc\n"
    ∧ load_presets_from_file [] (some "a\nb\nc\n") = (["a", "b", "c"], true) := by
  refine ⟨?_, ?_, ?_, ?_⟩
  · intro old presets hne hnl
    unfold save_presets_to_file
    rw [if_neg hne]
    show ((pyFileLines (presets.flatMap fun p => p.data ++ ['\n'])).map
        (fun l => String.mk (rstripNewlines l)), true) = (presets, true)
    rw [load_save_lines presets hnl]
  · intro presets
    rfl
  · decide
  · decide

/-- C3 witness: the round-trip theorem applied to `["a", "b", "c"]`. -/
theorem preset_file_roundtrip_c3_witness :
    load_presets_from_file [] (save_presets_to_file ["a", "b", "c"])
      = (["a", "b", "c"], true) :=
  preset_file_roundtrip_c3.1 [] ["a", "b", "c"] (by decide) (by decide)

/-- C7: `add_preset` returns false and leaves the list unchanged when the
text is empty or already present; for non-empty absent text it returns
true, appends the text at the end (hence length grows by exactly 1 and
every existing preset keeps its position). -/
theorem add_preset_c7 :
    (∀ presets : List String, add_preset presets "" = (presets, false))
    ∧ (∀ (presets : List String) (t : String), t ∈ presets →
        add_preset presets t = (presets, false))
    ∧ (∀ (presets : List String) (t : String), t ≠ "" → t ∉ presets →
        add_preset presets t = (presets ++ [t], true)
        ∧ (add_preset presets t).1.length = presets.length + 1
        ∧ (add_preset presets t).1.take presets.length = presets) := by
  refine ⟨?_, ?_, ?_⟩
  · intro presets
    simp [add_preset]
  · intro presets t ht
    simp [add_preset, ht]
  · intro presets t hne hmem
    have h : add_preset presets t = (presets ++ [t], true) := by
      simp [add_preset, hne, hmem]
    refine ⟨h, ?_, ?_⟩
    · rw [h]
      simp
    · rw [h]
      exact List.take_left presets [t]

/-- C7 witness: the add theorem applied to concrete lists. -/
theorem add_preset_c7_witness :
    add_preset ["a"] "a" = (["a"], false)
    ∧ add_preset ["a"] "b" = (["a", "b"], true) :=
  ⟨add_preset_c7.2.1 ["a"] "a" (by decide),
    (add_preset_c7.2.2 ["a"] "b" (by decide) (by decide)).1⟩

/-! ## Theme store (theme_manager.py)

The module-level `THEMES` dict (insertion-ordered), the module-level
mutable `current_theme`, and the static `get_theme` / `set_theme`. The
mutable current theme is passed explicitly. -/

/-- The 11 color roles of a theme palette. -/
structure Theme where
  PRIMARY : String
  SECONDARY : String
  ACCENT : String
  LIGHT : String
  DARK : String
  SUCCESS : String
  WARNING : String
  INFO : String
  SEND_AREA : String
  RECEIVE_AREA : String
  GROUP_BOX : String
  deriving DecidableEq, Repr

/-- The pink palette. -/
def pinkTheme : Theme :=
  { PRIMARY := "#F8C8DC", SECONDARY := "#FF69B4", ACCENT := "#FF1493",
    LIGHT := "#FFF0F5", DARK := "#C71585", SUCCESS := "#98FB98",
    WARNING := "#FFD700", INFO := "#87CEFA", SEND_AREA := "#FFE4E6",
    RECEIVE_AREA := "#FFF0F5", GROUP_BOX := "#FFB6C1" }

/-- The cyan palette. -/
def cyanTheme : Theme :=
  { PRIMARY := "#E0FFFF", SECONDARY := "#00CED1", ACCENT := "#008B8B",
    LIGHT := "#E0FFFF", DARK := "#008B8B", SUCCESS := "#98FB98",
    WARNING := "#FFD700", INFO := "#87CEFA", SEND_AREA := "#E0FFFF",
    RECEIVE_AREA := "#E0FFFF", GROUP_BOX := "#AFEEEE" }

/-- The blue palette (initial current theme). -/
def blueTheme : Theme :=
  { PRIMARY := "#E6EEF7", SECONDARY := "#4682B4", ACCENT := "#1E3A8A",
    LIGHT := "#F0F8FF", DARK := "#0A2463", SUCCESS := "#98FB98",
    WARNING := "#FFD700", INFO := "#87CEFA", SEND_AREA := "#E6EEF7",
    RECEIVE_AREA := "#F0F8FF", GROUP_BOX := "#B0C4DE" }

/-- The purple palette. -/
def purpleTheme : Theme :=
  { PRIMARY := "#E6E6FA", SECONDARY := "#9370DB", ACCENT := "#483D8B",
    LIGHT := "#F8F8FF", DARK := "#483D8B", SUCCESS := "#98FB98",
    WARNING := "#FFD700", INFO := "#87CEFA", SEND_AREA := "#E6E6FA",
    RECEIVE_AREA := "#F8F8FF", GROUP_BOX := "#DDA0DD" }

/-- The red palette. -/
def redTheme : Theme :=
  { PRIMARY := "#FFE4E1", SECONDARY := "#CD5C5C", ACCENT := "#8B0000",
    LIGHT := "#FFF5F5", DARK := "#8B0000", SUCCESS := "#98FB98",
    WARNING := "#FFD700", INFO := "#87CEFA", SEND_AREA := "#FFE4E1",
    RECEIVE_AREA := "#FFF5F5", GROUP_BOX := "#F08080" }

/-- The black palette. -/
def blackTheme : Theme :=
  { PRIMARY := "#2C2C2C", SECONDARY := "#4A4A4A", ACCENT := "#708090",
    LIGHT := "#1A1A1A", DARK := "#F0F0F0", SUCCESS := "#00FF00",
    WARNING := "#FFFF00", INFO := "#1E90FF", SEND_AREA := "#2C2C2C",
    RECEIVE_AREA := "#1A1A1A", GROUP_BOX := "#4A4A4A" }

/-- The white palette. -/
def whiteTheme : Theme :=
  { PRIMARY := "#FFFFFF", SECONDARY := "#F0F0F0", ACCENT := "#C0C0C0",
    LIGHT := "#FFFFFF", DARK := "#000000", SUCCESS := "#008000",
    WARNING := "#FFA500", INFO := "#0000FF", SEND_AREA := "#FFFFFF",
    RECEIVE_AREA := "#FFFFFF", GROUP_BOX := "#F0F0F0" }

/-- The green palette. -/
def greenTheme : Theme :=
  { PRIMARY := "#E8F5E9", SECONDARY := "#4CAF50", ACCENT := "#2E7D32",
    LIGHT := "#F1F8E9", DARK := "#1B5E20", SUCCESS := "#81C784",
    WARNING := "#FFD700", INFO := "#87CEFA", SEND_AREA := "#E8F5E9",
    RECEIVE_AREA := "#F1F8E9", GROUP_BOX := "#C8E6C9" }

/-- The `THEMES` dict: the eight palettes in declaration order. -/
def THEMES : List (String × Theme) :=
  [("粉色", pinkTheme), ("青色", cyanTheme), ("蓝色", blueTheme),
   ("紫色", purpleTheme), ("红色", redTheme), ("黑色", blackTheme),
   ("白色", whiteTheme), ("绿色", greenTheme)]

/-- Python `THEMES.get(name, default)` without the default. -/
def themesGet (name : String) : Option Theme :=
  THEMES.lookup name

/-- `ThemeManager.get_theme(name=None)`; `current` is the module-level
`current_theme`. The Python truthiness test `if name:` makes both `None`
and the empty string fall back to the current theme. -/
def get_theme (current : Theme) (name : Option String) : Theme :=
  match name with
  | none => current
  | some n => if n = "" then current else (themesGet n).getD current

/-- `ThemeManager.set_theme(name)`: the new value of `current_theme`
paired with the returned success flag. -/
def set_theme (current : Theme) (name : String) : Theme × Bool :=
  match themesGet name with
  | some t => (t, true)
  | none => (current, false)

/-- C6: for each of the eight theme names, `set_theme` succeeds, the new
current theme is that name's palette, and a subsequent `get_theme()`
returns it; for every unknown name `set_theme` fails leaving the current
theme unchanged, and `get_theme` on the unknown name falls back to the
current theme. The eight names all resolve, and the named palette is the
full 11-role record (checked explicitly for the default blue theme). -/
theorem theme_set_get_c6 :
    (∀ (current : Theme) (name : String) (t : Theme), themesGet name = some t →
      set_theme current name = (t, true)
      ∧ get_theme (set_theme current name).1 none = t)
    ∧ ((["粉色", "青色", "蓝色", "紫色", "红色", "黑色", "白色", "绿色"].all
        (fun n => (themesGet n).isSome)) = true)
    ∧ (THEMES.map Prod.fst
        = ["粉色", "青色", "蓝色", "紫色", "红色", "黑色", "白色", "绿色"])
    ∧ (∀ (current : Theme) (name : String), themesGet name = none →
        set_theme current name = (current, false)
        ∧ get_theme current (some name) = current)
    ∧ themesGet "蓝色" = some
        { PRIMARY := "#E6EEF7", SECONDARY := "#4682B4",
          ACCENT := "#1E3A8A", LIGHT := "#F0F8FF", DARK := "#0A2463",
          SUCCESS := "#98FB98", WARNING := "#FFD700", INFO := "#87CEFA",
          SEND_AREA := "#E6EEF7", RECEIVE_AREA := "#F0F8FF",
          GROUP_BOX := "#B0C4DE" } := by
  refine ⟨?_, ?_, ?_, ?_, ?_⟩
  · intro current name t h
    refine ⟨?_, ?_⟩
    · rw [set_theme, h]
    · rw [set_theme, h]
      rfl
  · decide
  · rfl
  · intro current name h
    refine ⟨by rw [set_theme, h], ?_⟩
    show (if name = "" then current else (themesGet name).getD current) = current
    by_cases he : name = ""
    · rw [if_pos he]
    · rw [if_neg he, h]
      rfl
  · decide

/-- C6 witness: the theorem applied to the pink theme and an unknown
name. -/
theorem theme_set_get_c6_witness :
    set_theme blueTheme "粉色" = (pinkTheme, true)
    ∧ set_theme blueTheme "nope" = (blueTheme, false) :=
  ⟨(theme_set_get_c6.1 blueTheme "粉色" pinkTheme (by decide)).1,
    (theme_set_get_c6.2.2.2.1 blueTheme "nope" (by decide)).1⟩

/-! ## Connection factory (connection_manager.py, C4)

`create_connection` dispatches on `connection_type.lower()` through the
`connection_types` dict; an unknown name raises `ValueError` before any
state change. Keyword arguments are modelled by a record carrying every
constructor's parameters; pyserial parity constants are single
characters. -/

/-- The keyword arguments the six constructors read. -/
structure ConnKwargs where
  port_name : String
  baudrate : Nat
  databits : Nat
  parity : Char
  stopbits : Nat
  host : String
  port : Nat
  is_server : Bool
  local_host : String
  local_port : Nat
  remote_host : Option String
  remote_port : Option Nat
  address : String
  bt_port : Nat
  deriving DecidableEq, Repr

/-- The six `Connection` variants with their constructor parameters. -/
inductive Connection where
  | serialConn (port_name : String) (baudrate databits : Nat) (parity : Char)
      (stopbits : Nat)
  | tcpConn (host : String) (port : Nat) (is_server : Bool)
  | udpConn (local_host : String) (local_port : Nat)
      (remote_host : Option String) (remote_port : Option Nat)
  | wifiConn (host : String) (port : Nat) (is_server : Bool)
  | ethernetConn (host : String) (port : Nat) (is_server : Bool)
  | bluetoothConn (address : String) (port : Nat)
  deriving DecidableEq, Repr

/-- `Connection.get_info` of each variant. -/
def Connection.get_info : Connection → String
  | .serialConn port_name baudrate _ _ _ =>
    "串口 " ++ port_name ++ "，波特率 " ++ toString baudrate
  | .tcpConn host port is_server =>
    "TCP " ++ (if is_server then "服务器" else "客户端") ++ " "
      ++ host ++ ":" ++ toString port
  | .udpConn lh lp rh rp =>
    match rh, rp with
    | some h, some p =>
      "UDP " ++ lh ++ ":" ++ toString lp ++ " -> " ++ h ++ ":" ++ toString p
    | _, _ => "UDP " ++ lh ++ ":" ++ toString lp
  | .wifiConn host port is_server =>
    "WiFi " ++ (if is_server then "服务器" else "客户端") ++ " "
      ++ host ++ ":" ++ toString port
  | .ethernetConn host port is_server =>
    "以太网 " ++ (if is_server then "服务器" else "客户端") ++ " "
      ++ host ++ ":" ++ toString port
  | .bluetoothConn address port =>
    "蓝牙 " ++ address ++ ":" ++ toString port

/-- The `connection_types` dict of `create_connection`, with each
constructor applied to its keyword arguments. -/
def connection_types (kwargs : ConnKwargs) : List (String × Connection) :=
  [("serial", .serialConn kwargs.port_name kwargs.baudrate kwargs.databits
      kwargs.parity kwargs.stopbits),
   ("tcp", .tcpConn kwargs.host kwargs.port kwargs.is_server),
   ("udp", .udpConn kwargs.local_host kwargs.local_port kwargs.remote_host
      kwargs.remote_port),
   ("wifi", .wifiConn kwargs.host kwargs.port kwargs.is_server),
   ("ethernet", .ethernetConn kwargs.host kwargs.port kwargs.is_server),
   ("bluetooth", .bluetoothConn kwargs.address kwargs.bt_port)]

/-- `ConnectionManager` state: the current connection and the
insertion-ordered lookup table keyed by each connection's info string. -/
structure ConnectionManager where
  current_connection : Option Connection
  connections : List (String × Connection)
  deriving DecidableEq, Repr

/-- Python dict assignment `d[k] = v` on an insertion-ordered table:
overwrite in place when the key exists, else append. -/
def dictInsert (k : String) (v : Connection) :
    List (String × Connection) → List (String × Connection)
  | [] => [(k, v)]
  | (k0, v0) :: rest =>
    if k0 = k then (k0, v) :: rest else (k0, v0) :: dictInsert k v rest

/-- Python `str.lower()` on the ASCII type names used by the factory. -/
def pyLowerChar (c : Char) : Char :=
  if 65 ≤ c.toNat ∧ c.toNat ≤ 90 then Char.ofNat (c.toNat + 32) else c

/-- Python `str.lower()` (ASCII range, which covers all type names). -/
def pyLower (s : String) : String :=
  String.mk (s.data.map pyLowerChar)

/-- `ConnectionManager.create_connection`: dispatch on the lowercased
type name; an unknown name raises `ValueError` (result `none`) with the
manager state unchanged; otherwise the connection is recorded under its
info string and becomes current. -/
def create_connection (m : ConnectionManager) (connection_type : String)
    (kwargs : ConnKwargs) : ConnectionManager × Option Connection :=
  match (connection_types kwargs).lookup (pyLower connection_type) with
  | none => (m, none)
  | some conn =>
    ({ current_connection := some conn,
       connections := dictInsert conn.get_info conn m.connections },
      some conn)

/-- C4: `create_connection` accepts the six type names case-insensitively
("SERIAL" and "serial" both produce the serial variant, and any name
whose lowercase form is one of the six produces the matching variant and
makes it current); for every name outside the set it fails and leaves
both the current connection and the lookup table unchanged. -/
theorem create_connection_c4 :
    (∀ (m : ConnectionManager) (kwargs : ConnKwargs),
      (create_connection m "SERIAL" kwargs).2
          = some (.serialConn kwargs.port_name kwargs.baudrate kwargs.databits
              kwargs.parity kwargs.stopbits)
        ∧ (create_connection m "serial" kwargs).2
          = some (.serialConn kwargs.port_name kwargs.baudrate kwargs.databits
              kwargs.parity kwargs.stopbits))
    ∧ (∀ (m : ConnectionManager) (kwargs : ConnKwargs) (name : String),
        pyLower name ∈ ["serial", "tcp", "udp", "wifi", "ethernet", "bluetooth"] →
        ∃ conn, (create_connection m name kwargs).2 = some conn
          ∧ (create_connection m name kwargs).1.current_connection = some conn)
    ∧ (∀ (m : ConnectionManager) (kwargs : ConnKwargs) (name : String),
        pyLower name ∉ ["serial", "tcp", "udp", "wifi", "ethernet", "bluetooth"] →
        create_connection m name kwargs = (m, none)) := by
  refine ⟨?_, ?_, ?_⟩
  · intro m kwargs
    constructor
    · rfl
    · rfl
  · intro m kwargs name h
    simp only [List.mem_cons, List.not_mem_nil, or_false] at h
    unfold create_connection
    rcases h with h | h | h | h | h | h <;>
      · rw [h]
        exact ⟨_, rfl, rfl⟩
  · intro m kwargs name h
    simp only [List.mem_cons, List.not_mem_nil, or_false, not_or] at h
    obtain ⟨h1, h2, h3, h4, h5, h6⟩ := h
    have e1 : (pyLower name == "serial") = false := beq_eq_false_iff_ne.mpr h1
    have e2 : (pyLower name == "tcp") = false := beq_eq_false_iff_ne.mpr h2
    have e3 : (pyLower name == "udp") = false := beq_eq_false_iff_ne.mpr h3
    have e4 : (pyLower name == "wifi") = false := beq_eq_false_iff_ne.mpr h4
    have e5 : (pyLower name == "ethernet") = false := beq_eq_false_iff_ne.mpr h5
    have e6 : (pyLower name == "bluetooth") = false := beq_eq_false_iff_ne.mpr h6
    unfold create_connection
    rw [show (connection_types kwargs).lookup (pyLower name) = none by
      simp [connection_types, List.lookup, e1, e2, e3, e4, e5, e6]]

/-- C4 witness: the factory theorem applied to a concrete manager state,
concrete keyword arguments, and the name "carrier-pigeon". -/
theorem create_connection_c4_witness :
    create_connection
        { current_connection := some (.tcpConn "h" 1 false), connections := [] }
        "carrier-pigeon"
        { port_name := "COM3", baudrate := 115200, databits := 8,
          parity := 'N', stopbits := 1, host := "localhost", port := 8080,
          is_server := false, local_host := "0.0.0.0", local_port := 8080,
          remote_host := none, remote_port := none, address := "00:00:00:00:00:00",
          bt_port := 1 }
      = ({ current_connection := some (.tcpConn "h" 1 false), connections := [] },
          none) :=
  create_connection_c4.2.2
    { current_connection := some (.tcpConn "h" 1 false), connections := [] }
    { port_name := "COM3", baudrate := 115200, databits := 8,
      parity := 'N', stopbits := 1, host := "localhost", port := 8080,
      is_server := false, local_host := "0.0.0.0", local_port := 8080,
      remote_host := none, remote_port := none, address := "00:00:00:00:00:00",
      bt_port := 1 }
    "carrier-pigeon" (by decide)

/-! ## Connection disconnect paths (C9)

One state record per variant, transcribing the fields each `disconnect`
touches. Handles are opaque identifiers; a serial port handle carries its
`is_open` flag (pyserial `close()` clears it, the Python reference
itself is retained by `SerialConnection`). -/

/-- A pyserial port handle, reduced to its `is_open` flag. -/
structure PortHandle where
  is_open : Bool
  deriving DecidableEq, Repr

/-- The fields of `SerialConnection` that `connect`/`disconnect` touch. -/
structure SerialConnState where
  serial_port : Option PortHandle
  is_connected : Bool
  deriving DecidableEq, Repr

/-- `SerialConnection.__init__`: no port, not connected. -/
def serialConnInit : SerialConnState :=
  { serial_port := none, is_connected := false }

/-- `SerialConnection.connect`: `openResult` is the outcome of the
`serial.Serial(...)` constructor; `none` means it raised, so the
assignment never happens and the state is unchanged (the wrapped error
propagates). On success `is_connected` is set to the port's `is_open`. -/
def serialConnConnect (s : SerialConnState) (openResult : Option PortHandle) :
    SerialConnState :=
  match openResult with
  | none => s
  | some p => { serial_port := some p, is_connected := p.is_open }

/-- `SerialConnection.disconnect`: close the port and clear the flag only
when a port exists and is open; otherwise do nothing. -/
def serialConnDisconnect (s : SerialConnState) : SerialConnState :=
  match s.serial_port with
  | some p =>
    if p.is_open then
      { serial_port := some { is_open := false }, is_connected := false }
    else s
  | none => s

/-- Invariant of every reachable `SerialConnection` state: whenever the
connection reports connected, it holds an open port. -/
def SerialInv (s : SerialConnState) : Prop :=
  s.is_connected = true → ∃ p, s.serial_port = some p ∧ p.is_open = true

/-- The fields of `TCPConnection` (also `WiFiConnection` and
`EthernetConnection`, which inherit it) that its methods touch. The
server thread is `some alive`. -/
structure TCPConnState where
  host : String
  port : Nat
  is_server : Bool
  is_connected : Bool
  socket : Option Nat
  client_socket : Option Nat
  server_thread : Option Bool
  deriving DecidableEq, Repr

/-- `TCPConnection.disconnect`: clear the flag, close and drop both
sockets, then join and drop the accept thread only if it is alive (a
dead thread reference is retained); every close error is swallowed. -/
def tcpDisconnect (s : TCPConnState) : TCPConnState :=
  { s with
    is_connected := false
    client_socket := none
    socket := none
    server_thread :=
      match s.server_thread with
      | some true => none
      | other => other }

/-- The fields of `UDPConnection` that `disconnect` touches. -/
structure UDPConnState where
  local_host : String
  local_port : Nat
  remote_host : Option String
  remote_port : Option Nat
  socket : Option Nat
  is_connected : Bool
  deriving DecidableEq, Repr

/-- `UDPConnection.disconnect`: close and drop the socket if any, then
clear the flag unconditionally. -/
def udpDisconnect (s : UDPConnState) : UDPConnState :=
  { s with socket := none, is_connected := false }

/-- The fields of `BluetoothConnection` that `disconnect` touches. -/
structure BTConnState where
  address : String
  port : Nat
  socket : Option Nat
  is_connected : Bool
  deriving DecidableEq, Repr

/-- `BluetoothConnection.disconnect`: close (errors swallowed) and drop
the socket if any, then clear the flag unconditionally. -/
def btDisconnect (s : BTConnState) : BTConnState :=
  { s with socket := none, is_connected := false }

/-- C9: for every connection variant, `disconnect` is idempotent and
raises nothing (it is a total function), a second call or a call on a
never-connected instance is a no-op, and after a disconnect the
`is_connected` flag is false (for Serial, on every state reachable
through the class's own methods, i.e. satisfying the connected-implies-
open invariant, which init, connect and disconnect all preserve) and the
owned handles are released: TCP drops both sockets, UDP and Bluetooth
drop theirs, and Serial's retained port handle is closed. -/
theorem disconnect_idempotent_c9 :
    (∀ s : SerialConnState,
      serialConnDisconnect (serialConnDisconnect s) = serialConnDisconnect s)
    ∧ (∀ s : SerialConnState, SerialInv s →
        (serialConnDisconnect s).is_connected = false)
    ∧ (∀ (s : SerialConnState) (p : PortHandle),
        (serialConnDisconnect s).serial_port = some p → p.is_open = false)
    ∧ (SerialInv serialConnInit
        ∧ (∀ s r, SerialInv s → SerialInv (serialConnConnect s r))
        ∧ (∀ s, SerialInv s → SerialInv (serialConnDisconnect s)))
    ∧ serialConnDisconnect serialConnInit = serialConnInit
    ∧ (∀ s : TCPConnState, tcpDisconnect (tcpDisconnect s) = tcpDisconnect s
        ∧ (tcpDisconnect s).is_connected = false
        ∧ (tcpDisconnect s).socket = none
        ∧ (tcpDisconnect s).client_socket = none)
    ∧ (∀ s : UDPConnState, udpDisconnect (udpDisconnect s) = udpDisconnect s
        ∧ (udpDisconnect s).is_connected = false
        ∧ (udpDisconnect s).socket = none)
    ∧ (∀ s : BTConnState, btDisconnect (btDisconnect s) = btDisconnect s
        ∧ (btDisconnect s).is_connected = false
        ∧ (btDisconnect s).socket = none) := by
  refine ⟨?_, ?_, ?_, ⟨?_, ?_, ?_⟩, ?_, ?_, ?_, ?_⟩
  · intro s
    unfold serialConnDisconnect
    rcases s with ⟨sp, c⟩
    rcases sp with _ | ⟨⟨op⟩⟩
    · rfl
    · cases op <;> simp
  · intro s hinv
    rcases s with ⟨sp, c⟩
    cases c with
    | false =>
      unfold serialConnDisconnect
      rcases sp with _ | ⟨⟨op⟩⟩
      · rfl
      · cases op <;> simp
    | true =>
      obtain ⟨p, hp, hop⟩ := hinv rfl
      simp only at hp
      subst hp
      simp [serialConnDisconnect, hop]
  · intro s p h
    rcases s with ⟨sp, c⟩
    rcases sp with _ | ⟨⟨op⟩⟩
    · simp [serialConnDisconnect] at h
    · cases op <;> simp_all [serialConnDisconnect] <;> subst h <;> rfl
  · intro h
    cases h
  · intro s r hinv
    rcases r with _ | p
    · exact hinv
    · intro hc
      exact ⟨p, rfl, by simpa [serialConnConnect] using hc⟩
  · intro s hinv
    rcases s with ⟨sp, c⟩
    rcases sp with _ | ⟨⟨op⟩⟩
    · exact hinv
    · cases op
      · exact hinv
      · intro hc
        simp [serialConnDisconnect] at hc
  · rfl
  · intro s
    refine ⟨?_, rfl, rfl, rfl⟩
    unfold tcpDisconnect
    rcases s with ⟨h, p, isrv, c, sock, cs, th⟩
    rcases th with _ | ⟨_ | _⟩ <;> rfl
  · intro s
    exact ⟨rfl, rfl, rfl⟩
  · intro s
    exact ⟨rfl, rfl, rfl⟩

/-- A connected serial state, the concrete disconnect input of the C9
witness. -/
def serialStateOpen : SerialConnState :=
  { serial_port := some { is_open := true }, is_connected := true }

/-- C9 witness: the disconnect theorem applied to a concrete state. -/
theorem disconnect_idempotent_c9_witness :
    (serialConnDisconnect serialStateOpen).is_connected = false
    ∧ serialConnDisconnect (serialConnDisconnect serialStateOpen)
      = serialConnDisconnect serialStateOpen :=
  ⟨disconnect_idempotent_c9.2.1 serialStateOpen
      (fun _ => ⟨{ is_open := true }, rfl, rfl⟩),
    disconnect_idempotent_c9.1 serialStateOpen⟩

/-! ## TCP send/receive guards (C10)

`TCPConnection.send` / `TCPConnection.receive` (inherited unchanged by
`WiFiConnection` and `EthernetConnection`). The socket layer is
abstracted: `sockSend` reports the byte count of a performed write, and
`recv` yields `none` when the non-blocking read raises (every exception,
`BlockingIOError` included, maps to empty bytes). The performed writes
are returned as a trace. -/

/-- `TCPConnection.send`: write to the accepted client in server mode,
to the own socket in client mode, else send nothing and return 0. -/
def tcpSend (s : TCPConnState) (sockSend : Nat → List Byte → Nat)
    (data : List Byte) : Nat × List (Nat × List Byte) :=
  match s.is_server, s.client_socket, s.socket with
  | true, some c, _ => (sockSend c data, [(c, data)])
  | false, _, some c => (sockSend c data, [(c, data)])
  | _, _, _ => (0, [])

/-- `TCPConnection.receive`: non-blocking read from the accepted client
in server mode, from the own socket in client mode, else empty; a raised
exception is swallowed into empty bytes. -/
def tcpReceive (s : TCPConnState) (recv : Nat → Option (List Byte)) :
    List Byte :=
  match s.is_server, s.client_socket, s.socket with
  | true, some c, _ => (recv c).getD []
  | false, _, some c => (recv c).getD []
  | _, _, _ => []

/-- C10: on a TCP (or WiFi/Ethernet) server connection before any client
has been accepted, `send` returns 0 performing no socket write and
`receive` returns empty bytes, for every input and every socket-layer
behavior; neither raises (both are total). -/
theorem tcp_server_no_client_c10 :
    ∀ (s : TCPConnState) (sockSend : Nat → List Byte → Nat)
      (recv : Nat → Option (List Byte)) (data : List Byte),
      s.is_server = true → s.client_socket = none →
      tcpSend s sockSend data = (0, []) ∧ tcpReceive s recv = [] := by
  intro s sockSend recv data hsrv hcs
  rcases s with ⟨h, p, isrv, c, sock, cs, th⟩
  simp only at hsrv hcs
  subst hsrv
  subst hcs
  exact ⟨rfl, rfl⟩

/-- C10 witness: the guard theorem applied to a concrete listening
server state. -/
theorem tcp_server_no_client_c10_witness :
    tcpSend
        { host := "0.0.0.0", port := 8080, is_server := true,
          is_connected := true, socket := some 1, client_socket := none,
          server_thread := some true }
        (fun _ d => d.length) [10, 20]
      = (0, [])
    ∧ tcpReceive
        { host := "0.0.0.0", port := 8080, is_server := true,
          is_connected := true, socket := some 1, client_socket := none,
          server_thread := some true }
        (fun _ => some [1, 2]) = [] :=
  ⟨(tcp_server_no_client_c10 _ (fun _ d => d.length) (fun _ => some [1, 2])
      [10, 20] rfl rfl).1,
    (tcp_server_no_client_c10 _ (fun _ d => d.length) (fun _ => some [1, 2])
      [10, 20] rfl rfl).2⟩

/-! ## Receive-display option handlers (C8)

`main_app.py`: `toggle_hex_receive`, `on_receive_encoding_changed`,
`on_error_handling_changed`, `_refresh_display`, together with the
`serial_config.py` label tables they read, and
`SerialThread.update_settings`. -/

/-- The `ENCODING_OPTIONS` label table of serial_config.py. -/
def ENCODING_OPTIONS : List (String × String) :=
  [("UTF-8", "utf-8"), ("GBK (中文)", "gbk"), ("GB2312 (中文)", "gb2312"),
   ("ANSI (默认)", "latin-1"), ("UTF-16", "utf-16"), ("ASCII", "ascii"),
   ("GB18030 (扩展中文)", "gb18030")]

/-- `SerialConfig.get_encoding_value`: label lookup with utf-8 default. -/
def get_encoding_value (name : String) : String :=
  (ENCODING_OPTIONS.lookup name).getD "utf-8"

/-- The `ERROR_HANDLING_OPTIONS` label table of serial_config.py. -/
def ERROR_HANDLING_OPTIONS : List (String × String) :=
  [("替换错误 (�)", "replace"), ("忽略错误", "ignore"),
   ("严格模式 (报错)", "strict")]

/-- `SerialConfig.get_error_handling_value`: label lookup with replace
default. -/
def get_error_handling_value (name : String) : String :=
  (ERROR_HANDLING_OPTIONS.lookup name).getD "replace"

/-- The live worker settings `SerialThread.update_settings` mutates. -/
structure WorkerSettings where
  hex_mode : Bool
  encoding : String
  error_handling : String
  deriving DecidableEq, Repr

/-- One entry of `self.data_history`: receive entries store raw bytes,
send entries store the already-formatted text. Timestamps are stored
rendered. -/
inductive HistEntry where
  | received (raw_data : List Byte) (timestamp : String)
  | sent (text : String) (timestamp : String)
  deriving DecidableEq

/-- The window state the three option handlers touch: the optional live
worker, the raw history, the rendered receive log, and the option
controls read by the handlers. -/
structure AppState where
  serial_thread : Option WorkerSettings
  data_history : List HistEntry
  receive_display : List String
  hex_receive_check : Bool
  receive_encoding_combo : String
  error_handling_combo : String
  timestamp_check : Bool
  newline_check : Bool

/-- One entry's rendering in `_refresh_display`: optional timestamp
prefix, direction tag, then the payload (re-derived through
`_format_data` from the raw bytes for received entries, the stored text
for sent entries), and the optional forced newline. -/
def renderEntry (decode : DecodeFn) (st : AppState) : HistEntry → String
  | .received raw ts =>
    (if st.timestamp_check then "[" ++ ts ++ "] " else "")
      ++ "[收到] "
      ++ format_data decode raw st.hex_receive_check
          (get_encoding_value st.receive_encoding_combo)
          (get_error_handling_value st.error_handling_combo)
      ++ (if st.newline_check then "\n" else "")
  | .sent text ts =>
    (if st.timestamp_check then "[" ++ ts ++ "] " else "")
      ++ "[发送] " ++ text
      ++ (if st.newline_check then "\n" else "")

/-- `SerialMonitor._refresh_display`: clear the log and re-render every
history entry under the current option settings (scroll position is
restored, which the list-of-lines model leaves implicit). -/
def refresh_display (decode : DecodeFn) (st : AppState) : AppState :=
  { st with receive_display := st.data_history.map (renderEntry decode st) }

/-- `SerialMonitor.toggle_hex_receive`: push the checkbox state to the
live worker if any, then redraw the whole log. -/
def toggle_hex_receive (decode : DecodeFn) (st : AppState) : AppState :=
  refresh_display decode
    { st with
      serial_thread := st.serial_thread.map
        (fun w => { w with hex_mode := st.hex_receive_check }) }

/-- `SerialMonitor.on_receive_encoding_changed`: push the mapped encoding
to the live worker if any, then redraw the whole log. -/
def on_receive_encoding_changed (decode : DecodeFn) (st : AppState) :
    AppState :=
  refresh_display decode
    { st with
      serial_thread := st.serial_thread.map
        (fun w =>
          { w with
            encoding := get_encoding_value st.receive_encoding_combo }) }

/-- `SerialMonitor.on_error_handling_changed`: push the mapped policy to
the live worker if any; no redraw. -/
def on_error_handling_changed (st : AppState) : AppState :=
  { st with
    serial_thread := st.serial_thread.map
      (fun w =>
        { w with
          error_handling := get_error_handling_value st.error_handling_combo }) }

/-- C8: changing hex mode or the receive encoding re-derives every stored
history entry's rendering from its raw bytes (through `_format_data`
under the current option settings) and redraws the whole receive log —
the previous log content is discarded and the stored history is
untouched — while changing only the error-handling option updates the
live worker's error-handling setting (keeping its hex mode and encoding)
but performs no redraw, leaving the rendered receive-log content exactly
as it was. -/
theorem display_option_handlers_c8 :
    (∀ (decode : DecodeFn) (st : AppState),
      (toggle_hex_receive decode st).receive_display
        = st.data_history.map (renderEntry decode st)
      ∧ (toggle_hex_receive decode st).data_history = st.data_history)
    ∧ (∀ (decode : DecodeFn) (st : AppState) (d : List String),
        (toggle_hex_receive decode { st with receive_display := d }).receive_display
          = (toggle_hex_receive decode st).receive_display)
    ∧ (∀ (decode : DecodeFn) (st : AppState),
        (on_receive_encoding_changed decode st).receive_display
          = st.data_history.map (renderEntry decode st)
        ∧ (on_receive_encoding_changed decode st).data_history
          = st.data_history)
    ∧ (∀ st : AppState,
        (on_error_handling_changed st).receive_display = st.receive_display
        ∧ (on_error_handling_changed st).data_history = st.data_history
        ∧ ∀ w, st.serial_thread = some w →
            (on_error_handling_changed st).serial_thread
              = some
                  { w with
                    error_handling :=
                      get_error_handling_value st.error_handling_combo }) := by
  refine ⟨?_, ?_, ?_, ?_⟩
  · intro decode st
    exact ⟨rfl, rfl⟩
  · intro decode st d
    rfl
  · intro decode st
    exact ⟨rfl, rfl⟩
  · intro st
    refine ⟨rfl, rfl, ?_⟩
    intro w hw
    simp [on_error_handling_changed, hw]

/-- The live worker of the C8 witness state. -/
def c8WitnessWorker : WorkerSettings :=
  { hex_mode := false, encoding := "utf-8", error_handling := "replace" }

/-- A concrete window state with one received entry and a live worker. -/
def c8WitnessState : AppState :=
  { serial_thread := some c8WitnessWorker,
    data_history := [.received [72] "t"],
    receive_display := ["x"],
    hex_receive_check := true,
    receive_encoding_combo := "UTF-8",
    error_handling_combo := "忽略错误",
    timestamp_check := false,
    newline_check := false }

/-- C8 witness: the handler theorem applied to the concrete state. -/
theorem display_option_handlers_c8_witness :
    (on_error_handling_changed c8WitnessState).serial_thread
      = some { hex_mode := false, encoding := "utf-8",
               error_handling := "ignore" } :=
  (display_option_handlers_c8.2.2.2 c8WitnessState).2.2 c8WitnessWorker rfl
